import Mathlib

/-!
Verification development for the trefle-api repository (aself101/trefle-api).

The development shallowly embeds the data-transformation core of the
repository: the record flattener `flattenPlantData`, the collection
trimmers `trimPlantSynonyms` and `findFirstSourceWithUrl` (src/config.js,
exported from utils.js), the per-record enrichment loop `enrichPlantData`
and the plant pagination/batching loop `fetchPlants` (main orchestration
script).

JavaScript values are modelled by the inductive type `JVal`.  Numbers are
modelled as integers (`Int`); the repository's core logic only compares
and counts with integral values (`species_count`, array lengths, page
numbers), so float-specific behaviour is out of scope.  `ToNumber`
coercion of arrays and objects (which in JS goes through `toString`) is
modelled as NaN (`none`); no claim exercises that corner.  Property reads
that throw in JS (reads on `null`/`undefined`) are modelled with
`Except`; all other property reads are total (`objAttr`).
-/

/-- A JavaScript value: `undefined`, `null`, booleans, (integer) numbers,
strings, arrays, and plain objects given as insertion-ordered field lists. -/
inductive JVal where
  | undefined : JVal
  | null : JVal
  | bool : Bool → JVal
  | num : Int → JVal
  | str : String → JVal
  | arr : List JVal → JVal
  | obj : List (String × JVal) → JVal

namespace JVal

/-- JS truthiness: `undefined`, `null`, `false`, `0` and `""` are falsy,
everything else (including empty arrays and objects) is truthy. -/
def truthy : JVal → Bool
  | .undefined => false
  | .null => false
  | .bool b => b
  | .num n => n != 0
  | .str s => s != ""
  | .arr _ => true
  | .obj _ => true

/-- Result of the JS test `typeof v === 'object'`; true for `null`,
arrays and objects. -/
def typeofIsObject : JVal → Bool
  | .null => true
  | .arr _ => true
  | .obj _ => true
  | _ => false

/-- Result of `Array.isArray(v)`. -/
def isArr : JVal → Bool
  | .arr _ => true
  | _ => false

/-- True exactly for the `null` value. -/
def isNull : JVal → Bool
  | .null => true
  | _ => false

/-- True for `null` and `undefined` (the values property reads throw on,
and the values `??` coalesces away). -/
def isNullish : JVal → Bool
  | .null => true
  | .undefined => true
  | _ => false

/-- True exactly for `undefined`. -/
def isUndef : JVal → Bool
  | .undefined => true
  | _ => false

end JVal

/-- First-match lookup in an object's field list; `undefined` when the key
is absent (JS property read on an object). -/
def lookupField : List (String × JVal) → String → JVal
  | [], _ => .undefined
  | (k1, v) :: rest, k => if k1 = k then v else lookupField rest k

/-- Total property read `v[k]` for the values it cannot throw on.
Objects look the key up; arrays and strings expose `length`; other
primitives yield `undefined`.  (Numeric-string indexing of arrays is not
needed by the embedded code and is not modelled.) -/
def objAttr : JVal → String → JVal
  | .obj fs, k => lookupField fs k
  | .arr xs, k => if k = "length" then .num xs.length else .undefined
  | .str s, k => if k = "length" then .num s.length else .undefined
  | _, _ => .undefined

/-- Property read `v[k]` in a position where JS would throw a `TypeError`
for `null`/`undefined` receivers. -/
def jsIndex : JVal → String → Except String JVal
  | .null, _ => .error "TypeError"
  | .undefined, _ => .error "TypeError"
  | v, k => .ok (objAttr v k)

/-- JS `a || b`. -/
def jsOr (a b : JVal) : JVal := if a.truthy then a else b

/-- JS `a ?? b` (nullish coalescing). -/
def jsNullishCoalesce (a b : JVal) : JVal := if a.isNullish then b else a

/-- JS optional chaining `v?.k` (on a non-nullish receiver this is a plain
property read; the receivers it is applied to in the source are never
`null` property-read throwers because of the `?.`). -/
def optChain (v : JVal) (k : String) : JVal :=
  if v.isNullish then .undefined else objAttr v k

/-- JS `ToNumber`, restricted to the modelled value space; `none` is NaN.
Strings parse as (trimmed) integers, the empty/whitespace string is `0`;
array/object coercion (via `toString`) is modelled as NaN. -/
def toNumber : JVal → Option Int
  | .num n => some n
  | .bool b => some (if b then 1 else 0)
  | .null => some 0
  | .undefined => none
  | .str s => if s.trim = "" then some 0 else s.trim.toInt?
  | .arr _ => none
  | .obj _ => none

/-- In-place update of an object's field list, as JS assignment
`o[k] = v`: replaces the first occurrence of `k` keeping its position,
otherwise appends the new field. -/
def setField : List (String × JVal) → String → JVal → List (String × JVal)
  | [], k, v => [(k, v)]
  | (k1, v1) :: rest, k, v =>
    if k1 = k then (k, v) :: rest else (k1, v1) :: setField rest k v

/-- JS assignment `o[k] = v` on a value known to be an object (the only
receivers assigned to in the embedded code are object literals). -/
def jsAssign : JVal → String → JVal → JVal
  | .obj fs, k, v => .obj (setField fs k v)
  | other, _, _ => other

/-- Shallow copy `{...v}`: identity on objects, index-keyed copies for
arrays and strings, the empty object for primitives. -/
def jsSpreadObj : JVal → JVal
  | .obj fs => .obj fs
  | .arr xs => .obj (xs.enum.map (fun p => (toString p.1, p.2)))
  | .str s => .obj (s.data.enum.map (fun p => (toString p.1, .str (String.mk [p.2]))))
  | _ => .obj []

/-- Array spread `[...v]` in a position where a non-iterable throws:
arrays spread to their elements, strings to their characters. -/
def jsSpreadArr : JVal → Except String (List JVal)
  | .arr xs => .ok xs
  | .str s => .ok (s.data.map (fun c => .str (String.mk [c])))
  | _ => .error "TypeError"

/-- The element sequence a `for (let i = 0; i < v.length; i++) v[i]` loop
walks: array elements, string characters, nothing for other values. -/
def jsElems : JVal → List JVal
  | .arr xs => xs
  | .str s => s.data.map (fun c => .str (String.mk [c]))
  | _ => []

/-- `Object.entries(v)`: an object's own fields in insertion order,
index-keyed entries for arrays and strings, empty otherwise. -/
def jsEntries : JVal → List (String × JVal)
  | .obj fs => fs
  | .arr xs => xs.enum.map (fun p => (toString p.1, p.2))
  | .str s => s.data.enum.map (fun p => (toString p.1, .str (String.mk [p.2])))
  | _ => []

/-- Own-property test `k in o` (false for non-objects). -/
def hasKeyB : JVal → String → Bool
  | .obj fs, k => fs.any (fun kv => kv.1 == k)
  | _, _ => false

/-- True when an `Except` computation returned normally. -/
def exceptIsOk {α : Type} : Except String α → Bool
  | .ok _ => true
  | .error _ => false

/-- Structural `mapM` for `Except`, modelling a JS loop that transforms a
list and lets any thrown error propagate. -/
def mapExcept {α β : Type} (f : α → Except String β) : List α → Except String (List β)
  | [] => .ok []
  | x :: xs =>
    match f x with
    | .error e => .error e
    | .ok y =>
      match mapExcept f xs with
      | .error e => .error e
      | .ok ys => .ok (y :: ys)

/-!
## `trimPlantSynonyms` (src/config.js lines 378-395)
-/

/-- Body of the `plants.map(plant => ...)` arrow in `trimPlantSynonyms`:
shallow-copy the record and truncate its `synonyms` field to the first
`maxSynonyms` entries when it is an array longer than that. -/
def trimOnePlant (maxSynonyms : Nat) (plant : JVal) : JVal :=
  let plantCopy := jsSpreadObj plant
  match objAttr plantCopy "synonyms" with
  | .arr syn =>
    if maxSynonyms < syn.length then
      jsAssign plantCopy "synonyms" (.arr (syn.take maxSynonyms))
    else plantCopy
  | _ => plantCopy

/-- `trimPlantSynonyms(plants, maxSynonyms = 5)`.  The source guard
`!plants || !Array.isArray(plants)` collapses to "not an array" because
arrays are always truthy; non-arrays are returned unchanged. -/
def trimPlantSynonyms (plants : JVal) (maxSynonyms : Nat := 5) : JVal :=
  match plants with
  | .arr xs => .arr (xs.map (trimOnePlant maxSynonyms))
  | other => other

/-!
## `findFirstSourceWithUrl` (src/config.js lines 406-418)
-/

/-- The loop condition `source && typeof source === 'object' && source.url`. -/
def hasTruthyUrl (source : JVal) : Bool :=
  source.truthy && (source.typeofIsObject && (objAttr source "url").truthy)

/-- `findFirstSourceWithUrl(sources)`: first entry passing
`hasTruthyUrl`, else `null`; `null` for any non-array input (the source
guard `!sources || !Array.isArray(sources)` collapses to "not an array"). -/
def findFirstSourceWithUrl (sources : JVal) : JVal :=
  match sources with
  | .arr xs =>
    match xs.find? hasTruthyUrl with
    | some s => s
    | none => .null
  | _ => .null

/-!
## `flattenPlantData` (src/config.js lines 446-604)
-/

/-- The root properties copied verbatim from the paginated record
(src/config.js lines 450-454). -/
def rootProps : List String :=
  ["id", "common_name", "slug", "scientific_name", "year",
   "bibliography", "author", "status", "rank", "family_common_name",
   "genus_id", "image_url", "observations", "vegetable"]

/-- The properties copied verbatim from `main_species`
(src/config.js line 472). -/
def mainSpeciesProps : List String :=
  ["rank", "observations", "duration", "edible_part", "edible"]

/-- The `synonyms` value stored by the flattener: default the raw value to
`[]`, then keep at most the first 5 entries of an array longer than 5
(src/config.js lines 461-466). -/
def trimSynonymsValue (synonymsRaw : JVal) : JVal :=
  let synonyms := jsOr synonymsRaw (.arr [])
  match synonyms with
  | .arr xs => if 5 < xs.length then .arr (xs.take 5) else .arr xs
  | other => other

/-- `mainSpecies.images || {}` relative to the defaulted `main_species`. -/
def rawImages (mainSpecies : JVal) : JVal :=
  jsOr (objAttr mainSpecies "images") (.obj [])

/-- `mainSpecies.distributions || {}` relative to the defaulted
`main_species`. -/
def rawDistributions (mainSpecies : JVal) : JVal :=
  jsOr (objAttr mainSpecies "distributions") (.obj [])

/-- `detailedData.main_species || {}` (total form, coinciding with the
embedded flattener's read whenever that read does not throw). -/
def mainSpeciesOf (detailedData : JVal) : JVal :=
  jsOr (objAttr detailedData "main_species") (.obj [])

/-- Projection of one image entry (src/config.js lines 488-495): entries
that are `typeof 'object'` are projected to `{image_url, copyright}` —
throwing on `null`, for which `typeof` is also `'object'` — and any other
entry passes through unmodified. -/
def trimImageEntry (img : JVal) : Except String JVal :=
  if img.typeofIsObject then
    match jsIndex img "image_url" with
    | .error e => .error e
    | .ok u =>
      match jsIndex img "copyright" with
      | .error e => .error e
      | .ok c => .ok (.obj [("image_url", u), ("copyright", c)])
  else .ok img

/-- The filter `img && (img.image_url || img.copyright)` applied after
projection (src/config.js line 496).  The `&&` short-circuit means the
attribute reads only happen on truthy values, which never throw. -/
def imageKeep (img : JVal) : Bool :=
  img.truthy && ((objAttr img "image_url").truthy || (objAttr img "copyright").truthy)

/-- `imageList.slice(0, 2).map(...).filter(...)` for one image type. -/
def trimImageList (imageList : List JVal) : Except String (List JVal) :=
  match mapExcept trimImageEntry (imageList.take 2) with
  | .error e => .error e
  | .ok projected => .ok (projected.filter imageKeep)

/-- The `for (const [imageType, imageList] of Object.entries(images))`
loop (src/config.js lines 481-502), accumulating the trimmed image map. -/
def flattenImagesGo : List (String × JVal) → List (String × JVal) → Except String (List (String × JVal))
  | [], acc => .ok acc
  | (imageType, imageList) :: rest, acc =>
    if !imageList.truthy || !imageList.isArr || imageType == "" then
      flattenImagesGo rest acc
    else
      match trimImageList (jsElems imageList) with
      | .error e => .error e
      | .ok trimmedList =>
        if 0 < trimmedList.length then
          flattenImagesGo rest (setField acc imageType (.arr trimmedList))
        else flattenImagesGo rest acc

/-- The trimmed `images` object built by the flattener. -/
def flattenImages (images : JVal) : Except String JVal :=
  match flattenImagesGo (jsEntries images) [] with
  | .error e => .error e
  | .ok fs => .ok (.obj fs)

/-- Projection of one distribution entry to `{name, species_count}`
(src/config.js lines 516-519); throws on `null`/`undefined` entries. -/
def trimDistEntry (dist : JVal) : Except String JVal :=
  match jsIndex dist "name" with
  | .error e => .error e
  | .ok n =>
    match jsIndex dist "species_count" with
    | .error e => .error e
    | .ok c => .ok (.obj [("name", n), ("species_count", c)])

/-- The total projection `trimDistEntry` computes on non-nullish entries. -/
def projDistEntry (dist : JVal) : JVal :=
  .obj [("name", objAttr dist "name"), ("species_count", objAttr dist "species_count")]

/-- The numeric sort key `a.species_count ?? 0` coerced by the comparator
subtraction; `none` is NaN. -/
def distCountNum (d : JVal) : Option Int :=
  toNumber (jsNullishCoalesce (objAttr d "species_count") (.num 0))

/-- The sort key with NaN collapsed to 0; on well-formed entries (numeric
or nullish `species_count`) this is exactly the comparator's key. -/
def speciesCountOf (d : JVal) : Int := (distCountNum d).getD 0

/-- The comparator `(a, b) => (b.species_count ?? 0) - (a.species_count ?? 0)`
as a merge-sort precedence test: `a` may precede `b` when the comparator
is `≤ 0`.  A NaN-valued subtraction compares as equal (neither `< 0` nor
`> 0`), hence `true` in the NaN cases. -/
def distLe (a b : JVal) : Bool :=
  match distCountNum a, distCountNum b with
  | some x, some y => decide (y ≤ x)
  | _, _ => true

/-- A total, transitive precedence agreeing with `distLe` on well-formed
entries; used to transport stock merge-sort lemmas. -/
def distLeKey (a b : JVal) : Bool :=
  decide (speciesCountOf b ≤ speciesCountOf a)

/-- True when a raw `species_count` attribute is a number, `null` or
absent — the shapes for which "missing counts as 0" describes the sort. -/
def isNumOrNullish : JVal → Bool
  | .num _ => true
  | .null => true
  | .undefined => true
  | _ => false

/-- One `distType` iteration of the distributions loop (src/config.js
lines 511-531): default the list, and if it is a non-empty array, project
each entry, sort by descending `species_count` (stably, as ECMAScript
requires of `Array.prototype.sort`), keep the first 5, and return them
(`none` when the key is to be omitted). -/
def trimDistForKey (distributions : JVal) (distType : String) : Except String (Option (List JVal)) :=
  let distList := jsOr (objAttr distributions distType) (.arr [])
  match distList with
  | .arr xs =>
    if 0 < xs.length then
      match mapExcept trimDistEntry xs with
      | .error e => .error e
      | .ok projected =>
        let trimmedDistList := (projected.mergeSort distLe).take 5
        if 0 < trimmedDistList.length then .ok (some trimmedDistList) else .ok none
    else .ok none
  | _ => .ok none

/-- The trimmed `distributions` object: the loop over the literal key list
`['native', 'introduced']`, unrolled, inserting each surviving key in
iteration order. -/
def flattenDistributions (distributions : JVal) : Except String JVal :=
  match trimDistForKey distributions "native" with
  | .error e => .error e
  | .ok n =>
    match trimDistForKey distributions "introduced" with
    | .error e => .error e
    | .ok i =>
      .ok (.obj ((match n with
                  | some t => [("native", JVal.arr t)]
                  | none => []) ++
                 (match i with
                  | some t => [("introduced", JVal.arr t)]
                  | none => [])))

/-- `genus`/`family` extraction (src/config.js lines 596-601): objects
contribute their `name`, bare values pass through. -/
def nameOf (g : JVal) : JVal :=
  if g.typeofIsObject then objAttr g "name" else g

/-- The two `flower_`-prefixed assignments (src/config.js lines 536-538). -/
def flowerAssignments (flower : JVal) : List (String × JVal) :=
  [("flower_color", objAttr flower "color"),
   ("flower_conspicuous", objAttr flower "conspicuous")]

/-- The three `foliage_`-prefixed assignments (src/config.js lines 541-544). -/
def foliageAssignments (foliage : JVal) : List (String × JVal) :=
  [("foliage_texture", objAttr foliage "texture"),
   ("foliage_color", objAttr foliage "color"),
   ("foliage_leaf_retention", objAttr foliage "leaf_retention")]

/-- The four `fruit_`-prefixed assignments (src/config.js lines 547-551). -/
def fruitAssignments (fruitOrSeed : JVal) : List (String × JVal) :=
  [("fruit_conspicuous", objAttr fruitOrSeed "conspicuous"),
   ("fruit_color", objAttr fruitOrSeed "color"),
   ("fruit_shape", objAttr fruitOrSeed "shape"),
   ("fruit_seed_persistence", objAttr fruitOrSeed "seed_persistence")]

/-- The nine `spec_`-prefixed assignments (src/config.js lines 558-567). -/
def specAssignments (specifications : JVal) : List (String × JVal) :=
  [("spec_ligneous_type", objAttr specifications "ligneous_type"),
   ("spec_growth_form", objAttr specifications "growth_form"),
   ("spec_growth_habit", objAttr specifications "growth_habit"),
   ("spec_growth_rate", objAttr specifications "growth_rate"),
   ("spec_average_height_cm", optChain (objAttr specifications "average_height") "cm"),
   ("spec_maximum_height_cm", optChain (objAttr specifications "maximum_height") "cm"),
   ("spec_nitrogen_fixation", objAttr specifications "nitrogen_fixation"),
   ("spec_shape_and_orientation", objAttr specifications "shape_and_orientation"),
   ("spec_toxicity", objAttr specifications "toxicity")]

/-- The twenty-three `growth_`-prefixed assignments (src/config.js lines
570-593). -/
def growthAssignments (growth : JVal) : List (String × JVal) :=
  [("growth_description", objAttr growth "description"),
   ("growth_sowing", objAttr growth "sowing"),
   ("growth_days_to_harvest", objAttr growth "days_to_harvest"),
   ("growth_row_spacing_cm", optChain (objAttr growth "row_spacing") "cm"),
   ("growth_spread_cm", optChain (objAttr growth "spread") "cm"),
   ("growth_ph_maximum", objAttr growth "ph_maximum"),
   ("growth_ph_minimum", objAttr growth "ph_minimum"),
   ("growth_light", objAttr growth "light"),
   ("growth_atmospheric_humidity", objAttr growth "atmospheric_humidity"),
   ("growth_months", objAttr growth "growth_months"),
   ("growth_bloom_months", objAttr growth "bloom_months"),
   ("growth_fruit_months", objAttr growth "fruit_months"),
   ("growth_minimum_precipitation_mm", optChain (objAttr growth "minimum_precipitation") "mm"),
   ("growth_maximum_precipitation_mm", optChain (objAttr growth "maximum_precipitation") "mm"),
   ("growth_minimum_root_depth_cm", optChain (objAttr growth "minimum_root_depth") "cm"),
   ("growth_minimum_temperature_deg_f", optChain (objAttr growth "minimum_temperature") "deg_f"),
   ("growth_minimum_temperature_deg_c", optChain (objAttr growth "minimum_temperature") "deg_c"),
   ("growth_maximum_temperature_deg_f", optChain (objAttr growth "maximum_temperature") "deg_f"),
   ("growth_maximum_temperature_deg_c", optChain (objAttr growth "maximum_temperature") "deg_c"),
   ("growth_soil_nutriments", objAttr growth "soil_nutriments"),
   ("growth_soil_salinity", objAttr growth "soil_salinity"),
   ("growth_soil_texture", objAttr growth "soil_texture"),
   ("growth_soil_humidity", objAttr growth "soil_humidity")]

/-- The full assignment sequence `flattened[...] = ...` executed by
`flattenPlantData`, in source order. -/
def flattenAssignments (rootVals : List JVal) (synonymsRaw : JVal) (mainSpecies : JVal)
    (trimmedImages trimmedDistributions : JVal) : List (String × JVal) :=
  rootProps.zip rootVals
  ++ [("synonyms", trimSynonymsValue synonymsRaw)]
  ++ mainSpeciesProps.map (fun pr => (pr, objAttr mainSpecies pr))
  ++ [("images", trimmedImages), ("distributions", trimmedDistributions)]
  ++ flowerAssignments (jsOr (objAttr mainSpecies "flower") (.obj []))
  ++ foliageAssignments (jsOr (objAttr mainSpecies "foliage") (.obj []))
  ++ fruitAssignments (jsOr (objAttr mainSpecies "fruit_or_seed") (.obj []))
  ++ [("source", findFirstSourceWithUrl (jsOr (objAttr mainSpecies "sources") (.arr [])))]
  ++ specAssignments (jsOr (objAttr mainSpecies "specifications") (.obj []))
  ++ growthAssignments (jsOr (objAttr mainSpecies "growth") (.obj []))
  ++ [("genus", nameOf (jsOr (objAttr mainSpecies "genus") (.obj [])))]
  ++ [("family", nameOf (jsOr (objAttr mainSpecies "family") (.obj [])))]

/-- Replay of a sequence of JS assignments into the initially empty
`flattened` object literal, in order. -/
def mkFlattened (assignments : List (String × JVal)) : JVal :=
  assignments.foldl (fun o kv => jsAssign o kv.1 kv.2) (.obj [])

/-- `flattenPlantData(paginatedData, detailedData)` (src/config.js lines
446-604).  The reads that can throw — the root-property and `synonyms`
reads on `paginatedData` and the `main_species` read on `detailedData`
(for nullish receivers), plus the per-entry projections inside the images
and distributions lists — surface as `Except` errors; everything else is
the pure assignment sequence `flattenAssignments`. -/
def flattenPlantData (paginatedData detailedData : JVal) : Except String JVal :=
  match mapExcept (jsIndex paginatedData) rootProps with
  | .error e => .error e
  | .ok rootVals =>
    match jsIndex paginatedData "synonyms" with
    | .error e => .error e
    | .ok synonymsRaw =>
      match jsIndex detailedData "main_species" with
      | .error e => .error e
      | .ok ms0 =>
        let mainSpecies := jsOr ms0 (.obj [])
        match flattenImages (rawImages mainSpecies) with
        | .error e => .error e
        | .ok trimmedImages =>
          match flattenDistributions (rawDistributions mainSpecies) with
          | .error e => .error e
          | .ok trimmedDistributions =>
            .ok (mkFlattened (flattenAssignments rootVals synonymsRaw mainSpecies
                   trimmedImages trimmedDistributions))

/-!
## `enrichPlantData` (main orchestration script, lines 123-170)

The detail endpoint `api.getPlant(id)` is an external collaborator,
modelled as an oracle `getPlant : JVal → Except String JVal` mapping the
plant id to the fetch outcome.  The embedded loop is the non-dry-run
path; logging and the rate-limit pause are effect-free here.
-/

/-- One loop iteration's `try` body for a plant whose id was truthy:
fetch the detail record; on success, flatten when `detailedResult.data`
is truthy; any failure (fetch error, property read on a nullish result,
or a throw inside `flattenPlantData`) is caught and the original summary
record is pushed instead. -/
def enrichOne (getPlant : JVal → Except String JVal) (plantId plant : JVal) : JVal :=
  match getPlant plantId with
  | .error _ => plant
  | .ok detailedResult =>
    match jsIndex detailedResult "data" with
    | .error _ => plant
    | .ok data =>
      if data.truthy then
        match flattenPlantData plant data with
        | .ok flattened => flattened
        | .error _ => plant
      else plant

/-- The `for` loop of `enrichPlantData`: records with a falsy `id` are
skipped with a warning (outside the `try`, so a nullish record makes the
`plant.id` read throw out of the whole function). -/
def enrichGo (getPlant : JVal → Except String JVal) : List JVal → Except String (List JVal)
  | [] => .ok []
  | plant :: rest =>
    match jsIndex plant "id" with
    | .error e => .error e
    | .ok plantId =>
      if plantId.truthy then
        match enrichGo getPlant rest with
        | .error e => .error e
        | .ok out => .ok (enrichOne getPlant plantId plant :: out)
      else
        enrichGo getPlant rest

/-- Strict-equality test `v === 0` used by the early return. -/
def isJsZero : JVal → Bool
  | .num 0 => true
  | _ => false

/-- `enrichPlantData(api, plants)` (non-dry-run): early-return `[]` for
falsy input or `plants.length === 0`, otherwise run the loop over the
indexable elements. -/
def enrichPlantData (getPlant : JVal → Except String JVal) (plants : JVal) :
    Except String (List JVal) :=
  if !plants.truthy || isJsZero (objAttr plants "length") then .ok []
  else enrichGo getPlant (jsElems plants)

/-!
## `fetchPlants` (main orchestration script, lines 206-336)

The paginated endpoint `api.getPlants({page})` and the detail endpoint
are external collaborators, modelled as oracles.  The file writer is
modelled by accumulating `WriteEvent`s (filename and written records) in
call order; `writeToFile` itself is I/O plumbing outside the core.  Only
the filename (not the directory prefix) is modelled, matching the
`plants_pages_{start}-{end}{_enriched?}{ext}` convention.  The embedded
loop is the non-dry-run path with the `--plants` flag set; the `while
(true)` loop is given explicit fuel (every claim's scenario terminates
well within it). -/

structure PlantsApi where
  getPlants : Nat → Except String JVal
  getPlant : JVal → Except String JVal

structure FetchOptions where
  enrichment : Bool
  pages : Option Nat
  startPage : Nat
  format : String

/-- `getFileExtension(fileFormat)` (orchestration script lines 105-113). -/
def getFileExtension (fileFormat : String) : String :=
  if fileFormat = "json.gz" then ".json.gz"
  else if fileFormat = "csv" then ".csv"
  else ".json"

/-- `options.enrichment ? '_enriched' : ''`. -/
def enrichedSuffix (opts : FetchOptions) : String :=
  if opts.enrichment then "_enriched" else ""

/-- The batch filename `plants_pages_{start}-{end}{suffix}{ext}`. -/
def batchFilename (opts : FetchOptions) (batchStartPage batchEndPage : Nat) : String :=
  "plants_pages_" ++ toString batchStartPage ++ "-" ++ toString batchEndPage
    ++ enrichedSuffix opts ++ getFileExtension opts.format

/-- `const batchSize = options.enrichment ? 5 : 10`. -/
def batchSizeOf (opts : FetchOptions) : Nat :=
  if opts.enrichment then 5 else 10

/-- The guard `options.pages && pagesFetched >= options.pages`: absent or
zero (falsy) page counts impose no ceiling. -/
def pageLimitReached (pages : Option Nat) (pagesFetched : Nat) : Bool :=
  match pages with
  | some n => decide (0 < n) && decide (n ≤ pagesFetched)
  | none => false

/-- `result.links && result.links.next` (total: `result` survived its
`data` read, so it is not nullish). -/
def jsHasNext (result : JVal) : Bool :=
  (objAttr result "links").truthy && (objAttr (objAttr result "links") "next").truthy

/-- `result.data.length > 0` after `result.data` was found truthy: the JS
`>` coerces via `ToNumber`, and a NaN comparison is false. -/
def jsLenPositive (data : JVal) : Bool :=
  match toNumber (objAttr data "length") with
  | some n => decide (0 < n)
  | none => false

/-- One record-write of the file-writer collaborator. -/
structure WriteEvent where
  filepath : String
  data : List JVal

/-- The per-page record production: enrichment mode enriches the page's
plants, basic mode trims synonyms and spreads the result into the batch
(`batchData.push(...trimmedData)`). -/
def fetchPageRecords (api : PlantsApi) (opts : FetchOptions) (data : JVal) :
    Except String (List JVal) :=
  if opts.enrichment then enrichPlantData api.getPlant data
  else jsSpreadArr (trimPlantSynonyms data 5)

/-- The `while (true)` pagination loop of `fetchPlants`, non-dry-run
path, returning the sequence of file writes.  State: current `page`,
`pagesFetched`, open `batchData`, its `batchStartPage`, and the writes so
far.  Exits: page ceiling (flush partial batch), fetch/processing error
(flush partial batch), truthy-but-empty or absent `data` (break with NO
flush — source lines 317-319), and absent `links.next` (flush partial
batch).  All throwing steps occur before any write of the iteration, so
the error handler always flushes the batch as it stood at entry. -/
def fetchPlantsGo (api : PlantsApi) (opts : FetchOptions) :
    Nat → Nat → Nat → List JVal → Nat → List WriteEvent → List WriteEvent
  | 0, _, _, _, _, writes => writes
  | fuel + 1, page, pagesFetched, batchData, batchStartPage, writes =>
    if pageLimitReached opts.pages pagesFetched then
      if batchData.isEmpty then writes
      else writes ++ [⟨batchFilename opts batchStartPage (page - 1), batchData⟩]
    else
      match api.getPlants page with
      | .error _ =>
        if batchData.isEmpty then writes
        else writes ++ [⟨batchFilename opts batchStartPage (page - 1), batchData⟩]
      | .ok result =>
        match ((match jsIndex result "data" with
                | .error e => .error e
                | .ok data =>
                  if data.truthy && jsLenPositive data then
                    match fetchPageRecords api opts data with
                    | .error e => .error e
                    | .ok recs => .ok (some recs)
                  else .ok none) : Except String (Option (List JVal))) with
        | .error _ =>
          if batchData.isEmpty then writes
          else writes ++ [⟨batchFilename opts batchStartPage (page - 1), batchData⟩]
        | .ok none => writes
        | .ok (some recs) =>
          let batchData2 := batchData ++ recs
          let pagesFetched2 := pagesFetched + 1
          let flushNow := pagesFetched2 % batchSizeOf opts == 0
          let writes2 :=
            if flushNow then writes ++ [⟨batchFilename opts batchStartPage page, batchData2⟩]
            else writes
          let batchData3 := if flushNow then [] else batchData2
          let batchStartPage3 := if flushNow then page + 1 else batchStartPage
          if jsHasNext result then
            fetchPlantsGo api opts fuel (page + 1) pagesFetched2 batchData3 batchStartPage3 writes2
          else
            if batchData3.isEmpty then writes2
            else writes2 ++ [⟨batchFilename opts batchStartPage3 page, batchData3⟩]

/-- `fetchPlants(api, options)`: start at `options.startPage` with an
empty batch. -/
def fetchPlants (api : PlantsApi) (opts : FetchOptions) (fuel : Nat) : List WriteEvent :=
  fetchPlantsGo api opts fuel opts.startPage 0 [] opts.startPage []

/-!
## Basic lemmas about the value model
-/

theorem mapExcept_ok_length {α β : Type} {f : α → Except String β} :
    ∀ {l : List α} {l2 : List β}, mapExcept f l = .ok l2 → l2.length = l.length := by
  intro l
  induction l with
  | nil => intro l2 h; simp only [mapExcept] at h; cases h; rfl
  | cons x xs ih =>
    intro l2 h
    simp only [mapExcept] at h
    cases hx : f x with
    | error e => rw [hx] at h; cases h
    | ok y =>
      rw [hx] at h
      cases hxs : mapExcept f xs with
      | error e => rw [hxs] at h; cases h
      | ok ys => rw [hxs] at h; cases h; simp [ih hxs]

theorem mapExcept_ok_of_forall {α β : Type} {f : α → Except String β} {g : α → β} :
    ∀ {l : List α}, (∀ x ∈ l, f x = .ok (g x)) → mapExcept f l = .ok (l.map g) := by
  intro l
  induction l with
  | nil => intro _; rfl
  | cons x xs ih =>
    intro h
    simp only [mapExcept, h x (by simp), ih (fun y hy => h y (by simp [hy])), List.map]

theorem jsIndex_of_not_nullish {v : JVal} (h : v.isNullish = false) (k : String) :
    jsIndex v k = .ok (objAttr v k) := by
  cases v <;> simp_all [JVal.isNullish, jsIndex]

theorem jsIndex_ok_val {v : JVal} {k : String} {w : JVal} (h : jsIndex v k = .ok w) :
    w = objAttr v k := by
  cases v <;> simp_all [jsIndex]

theorem lookupField_setField_self (fs : List (String × JVal)) (k : String) (v : JVal) :
    lookupField (setField fs k v) k = v := by
  induction fs with
  | nil => simp [setField, lookupField]
  | cons kv rest ih =>
    by_cases hk : kv.1 = k
    · simp [setField, hk, lookupField]
    · simp [setField, hk, lookupField, ih]

theorem lookupField_setField_of_ne (fs : List (String × JVal)) {k k2 : String} (v : JVal)
    (h : k ≠ k2) : lookupField (setField fs k v) k2 = lookupField fs k2 := by
  induction fs with
  | nil => simp [setField, lookupField, h]
  | cons kv rest ih =>
    by_cases hk : kv.1 = k
    · simp [setField, hk, lookupField, h]
    · simp [setField, hk, lookupField, ih]

theorem lookupField_eq_undefined_of_not_hasKey {fs : List (String × JVal)} {k : String}
    (h : fs.any (fun kv => kv.1 == k) = false) : lookupField fs k = .undefined := by
  induction fs with
  | nil => rfl
  | cons kv rest ih =>
    simp only [List.any_cons, Bool.or_eq_false_iff, beq_eq_false_iff_ne] at h
    simp [lookupField, h.1, ih h.2]

/-!
## Claim C7 — `trimPlantSynonyms`

The per-record behaviour is that of `trimOnePlant`; the sequence level is
an order-preserving `map`.  Mutation is not observable in the pure
embedding: `trimOnePlant` builds its result from a shallow copy
(`jsSpreadObj`), and the input value is untouched by construction.
-/

/-- Claim C7: `trimPlantSynonyms` maps each record through `trimOnePlant`
in original order; for an object record whose `synonyms` is an array of
length `L`, the output record's `synonyms` is exactly the prefix
`syn.take max` of the original, of length `min L max`, and every other
field is unchanged; an object record without an array-valued `synonyms`
field passes through identically (the field is left exactly as it was,
not set to empty). -/
theorem trimPlantSynonyms_spec (rs : List JVal) (maxS : Nat) :
    trimPlantSynonyms (.arr rs) maxS = .arr (rs.map (trimOnePlant maxS))
    ∧ (∀ fs : List (String × JVal),
        (∀ syn : List JVal, objAttr (.obj fs) "synonyms" = .arr syn →
          objAttr (trimOnePlant maxS (.obj fs)) "synonyms" = .arr (syn.take maxS)
          ∧ (syn.take maxS).length = min syn.length maxS
          ∧ (∀ k : String, k ≠ "synonyms" →
              objAttr (trimOnePlant maxS (.obj fs)) k = objAttr (.obj fs) k))
        ∧ ((∀ syn : List JVal, objAttr (.obj fs) "synonyms" ≠ .arr syn) →
            trimOnePlant maxS (.obj fs) = .obj fs)) := by
  refine ⟨rfl, ?_⟩
  intro fs
  refine ⟨?_, ?_⟩
  · intro syn hsyn
    have hcopy : jsSpreadObj (.obj fs) = .obj fs := rfl
    by_cases hlen : maxS < syn.length
    · have htrim : trimOnePlant maxS (.obj fs)
          = jsAssign (.obj fs) "synonyms" (.arr (syn.take maxS)) := by
        simp only [trimOnePlant, hcopy, hsyn, if_pos hlen]
      refine ⟨?_, ?_, ?_⟩
      · simp [htrim, jsAssign, objAttr, lookupField_setField_self]
      · simp [Nat.min_comm]
      · intro k hk
        simp only [htrim, jsAssign, objAttr]
        exact lookupField_setField_of_ne fs _ (fun hcon => hk hcon.symm)
    · have htrim : trimOnePlant maxS (.obj fs) = .obj fs := by
        simp only [trimOnePlant, hcopy, hsyn, if_neg hlen]
      have hle : syn.length ≤ maxS := Nat.le_of_not_lt hlen
      refine ⟨?_, ?_, ?_⟩
      · rw [htrim, hsyn, List.take_of_length_le hle]
      · simp [Nat.min_comm]
      · intro k _; rw [htrim]
  · intro hnone
    cases hv : objAttr (.obj fs) "synonyms" with
    | arr syn => exact absurd hv (hnone syn)
    | _ => simp only [trimOnePlant, jsSpreadObj, hv]

/-- Witness for C7 at a concrete record: seven synonyms trimmed to five,
an unrelated field untouched, and a record without synonyms passed
through unchanged. -/
theorem trimPlantSynonyms_spec_witness :
    objAttr (trimOnePlant 5 (.obj [("synonyms",
        .arr [.str "s1", .str "s2", .str "s3", .str "s4", .str "s5", .str "s6", .str "s7"]),
        ("x", .num 1)])) "synonyms"
      = .arr [.str "s1", .str "s2", .str "s3", .str "s4", .str "s5"]
    ∧ objAttr (trimOnePlant 5 (.obj [("synonyms",
        .arr [.str "s1", .str "s2", .str "s3", .str "s4", .str "s5", .str "s6", .str "s7"]),
        ("x", .num 1)])) "x" = .num 1
    ∧ trimOnePlant 5 (.obj [("x", .num 1)]) = .obj [("x", .num 1)] := by
  have h := trimPlantSynonyms_spec [] 5
  have h1 := (h.2 [("synonyms",
      .arr [.str "s1", .str "s2", .str "s3", .str "s4", .str "s5", .str "s6", .str "s7"]),
      ("x", .num 1)]).1 [.str "s1", .str "s2", .str "s3", .str "s4", .str "s5", .str "s6", .str "s7"] rfl
  have h2 := (h.2 [("x", .num 1)]).2 (by intro syn hc; simp [objAttr, lookupField] at hc)
  exact ⟨h1.1, h1.2.2 "x" (by decide), h2⟩

/-!
## Claim C8 — `findFirstSourceWithUrl`
-/

theorem find_first_url_aux :
    ∀ (xs : List JVal) (i : Nat) (hi : i < xs.length),
      hasTruthyUrl (xs.get ⟨i, hi⟩) = true →
      (∀ (j : Nat) (hj : j < xs.length), j < i → hasTruthyUrl (xs.get ⟨j, hj⟩) = false) →
      xs.find? hasTruthyUrl = some (xs.get ⟨i, hi⟩) := by
  intro xs
  induction xs with
  | nil => intro i hi; cases hi
  | cons x rest ih =>
    intro i hi hget hbefore
    cases i with
    | zero => simpa [List.find?_cons_of_pos, hget] using List.find?_cons_of_pos (p := hasTruthyUrl) rest hget
    | succ n =>
      have hx : hasTruthyUrl x = false := hbefore 0 (by simp) (Nat.succ_pos n)
      have hfind := ih n (Nat.lt_of_succ_lt_succ hi) hget
        (fun j hj hlt => hbefore (j + 1) (Nat.succ_lt_succ hj) (Nat.succ_lt_succ hlt))
      rw [List.find?_cons_of_neg rest (by simp [hx])]
      exact hfind

theorem hasTruthyUrl_shape {s : JVal} (h : hasTruthyUrl s = true) :
    (∃ fs : List (String × JVal), s = .obj fs) ∧ (objAttr s "url").truthy = true := by
  cases s <;> simp_all [hasTruthyUrl, JVal.truthy, JVal.typeofIsObject, objAttr]

/-- Claim C8: `findFirstSourceWithUrl` returns the entry at the smallest
index passing the source's `source && typeof source === 'object' &&
source.url` test — necessarily a (non-null) mapping with a truthy `url`
— skipping `null` and non-mapping entries; it yields the absence marker
`null` for `null`, `undefined`, non-array and empty-array input, and for
arrays with no qualifying entry; and it never returns an array. -/
theorem findFirstSourceWithUrl_spec :
    (∀ (xs : List JVal) (i : Nat) (hi : i < xs.length),
      hasTruthyUrl (xs.get ⟨i, hi⟩) = true →
      (∀ (j : Nat) (hj : j < xs.length), j < i → hasTruthyUrl (xs.get ⟨j, hj⟩) = false) →
      findFirstSourceWithUrl (.arr xs) = xs.get ⟨i, hi⟩
      ∧ (∃ fs : List (String × JVal), xs.get ⟨i, hi⟩ = .obj fs)
      ∧ (objAttr (xs.get ⟨i, hi⟩) "url").truthy = true)
    ∧ (∀ v : JVal, v.isArr = false → findFirstSourceWithUrl v = .null)
    ∧ findFirstSourceWithUrl (.arr []) = .null
    ∧ (∀ xs : List JVal, (∀ x ∈ xs, hasTruthyUrl x = false) →
        findFirstSourceWithUrl (.arr xs) = .null)
    ∧ (∀ (v : JVal) (ys : List JVal), findFirstSourceWithUrl v ≠ .arr ys) := by
  refine ⟨?_, ?_, rfl, ?_, ?_⟩
  · intro xs i hi hget hbefore
    refine ⟨?_, (hasTruthyUrl_shape hget).1, (hasTruthyUrl_shape hget).2⟩
    simp [findFirstSourceWithUrl, find_first_url_aux xs i hi hget hbefore]
  · intro v hv
    cases v <;> simp_all [JVal.isArr, findFirstSourceWithUrl]
  · intro xs hall
    have : xs.find? hasTruthyUrl = none := List.find?_eq_none.mpr (fun x hx => by simp [hall x hx])
    simp [findFirstSourceWithUrl, this]
  · intro v ys
    cases v with
    | arr xs =>
      cases hf : xs.find? hasTruthyUrl with
      | none => simp [findFirstSourceWithUrl, hf]
      | some s =>
        have hs := List.find?_some hf
        obtain ⟨fs, hfs⟩ := (hasTruthyUrl_shape hs).1
        simp [findFirstSourceWithUrl, hf, hfs]
    | _ => simp [findFirstSourceWithUrl]

/-- Witness for C8: on `[null, {name}, {name, url}, {url: other}]` the
function returns the index-2 entry; a string input and an exhausted array
give `null`. -/
theorem findFirstSourceWithUrl_spec_witness :
    findFirstSourceWithUrl (.arr [.null, .obj [("name", .str "a")],
        .obj [("name", .str "b"), ("url", .str "u")], .obj [("url", .str "w")]])
      = .obj [("name", .str "b"), ("url", .str "u")]
    ∧ findFirstSourceWithUrl (.str "notalist") = .null
    ∧ findFirstSourceWithUrl (.arr [.null, .obj [("name", .str "a")]]) = .null := by
  have h := findFirstSourceWithUrl_spec
  refine ⟨(h.1 [.null, .obj [("name", .str "a")],
      .obj [("name", .str "b"), ("url", .str "u")], .obj [("url", .str "w")]] 2 (by decide)
      rfl ?_).1, h.2.1 (.str "notalist") rfl, h.2.2.2.1 [.null, .obj [("name", .str "a")]] ?_⟩
  · intro j hj hlt
    match j, hlt with
    | 0, _ => rfl
    | 1, _ => rfl
  · intro x hx
    fin_cases hx <;> rfl

/-!
## Claim C5 — the three-page, batch-size-10, non-enrichment scenario
-/

/-- A summary record with just an id (no `synonyms` field, so trimming
leaves it untouched). -/
def scenarioPlant (i : Int) : JVal := .obj [("id", .num i)]

/-- A paginated response `{data, links: {next}}`. -/
def scenarioPage (xs : List JVal) (next : JVal) : JVal :=
  .obj [("data", .arr xs), ("links", .obj [("next", next)])]

/-- Oracle for C5: pages 1, 2, 3 carry 2, 2 and 1 plants; page 3's
`links.next` is `null`. -/
def c5Api : PlantsApi where
  getPlants := fun page =>
    if page == 1 then .ok (scenarioPage [scenarioPlant 1, scenarioPlant 2] (.str "u"))
    else if page == 2 then .ok (scenarioPage [scenarioPlant 3, scenarioPlant 4] (.str "u"))
    else if page == 3 then .ok (scenarioPage [scenarioPlant 5] .null)
    else .error "unexpected page"
  getPlant := fun _ => .error "not used in non-enrichment mode"

/-- Options for C5: non-enrichment (batch size 10), no page ceiling,
start page 1, JSON format. -/
def c5Opts : FetchOptions where
  enrichment := false
  pages := none
  startPage := 1
  format := "json"

/-- Claim C5: with three consecutive pages of 2/2/1 plants, batch size 10
(non-enrichment) and no page ceiling, the fetch loop performs exactly one
write, named `plants_pages_1-3.json`, containing the 5 trimmed records in
page order. -/
theorem fetchPlants_three_page_scenario :
    fetchPlants c5Api c5Opts 5 =
      [⟨"plants_pages_1-3.json",
        [scenarioPlant 1, scenarioPlant 2, scenarioPlant 3, scenarioPlant 4,
         scenarioPlant 5]⟩] := rfl

/-!
## Claim C3 — batch flushing at the loop's exit points

The claim says every exit point flushes the open partial batch.  The
source flushes at the page ceiling, at a missing `links.next` and on a
caught fetch/processing error, but the `else` branch taken when a fetched
page's `data` is absent, falsy or empty (source lines 317-319) executes
`break` without writing `batchData`: records accumulated from earlier
pages of the open batch are silently discarded.  The spec explicitly
lists an empty/absent `data` page as one of the walk's natural stop
conditions, and every other stop condition flushes — dropping fetched
records at this one exit contradicts the evident intent, so this is
recorded as a bug in the code rather than a spec error.
-/

/-- Oracle for C3: page 1 returns one plant and advertises a next page;
page 2 returns an empty `data` array. -/
def c3Api : PlantsApi where
  getPlants := fun page =>
    if page == 1 then .ok (scenarioPage [scenarioPlant 1] (.str "u"))
    else if page == 2 then .ok (scenarioPage [] .null)
    else .error "unexpected page"
  getPlant := fun _ => .error "not used in non-enrichment mode"

/-- Claim C3 (failing input): after page 1's record enters the open
batch, page 2's empty `data` terminates the walk and the loop performs NO
write at all — the partial batch is discarded, contradicting the claim
that every termination flushes it.  (That batch was non-empty is visible
from the C5 theorem's oracle shape; here the only write list produced is
empty.) -/
theorem fetchPlants_empty_page_discards_batch :
    fetchPlants c3Api c5Opts 5 = [] := rfl

/-!
## Claims C6 and C10 — `enrichPlantData`
-/

theorem enrichGo_eq (getPlant : JVal → Except String JVal) :
    ∀ plants : List JVal, (∀ pl ∈ plants, pl.isNullish = false) →
      enrichGo getPlant plants =
        .ok ((plants.filter (fun pl => (objAttr pl "id").truthy)).map
          (fun pl => enrichOne getPlant (objAttr pl "id") pl)) := by
  intro plants
  induction plants with
  | nil => intro _; rfl
  | cons plant rest ih =>
    intro h
    have hplant := h plant (by simp)
    have hrest := ih (fun pl hpl => h pl (by simp [hpl]))
    simp only [enrichGo, jsIndex_of_not_nullish hplant, hrest]
    by_cases hid : (objAttr plant "id").truthy
    · simp [hid, List.filter_cons]
    · simp only [Bool.not_eq_true] at hid
      simp [hid, List.filter_cons]

/-- Claim C6: during enrichment of a list of summary records that all
carry a truthy `id`, the output is the input mapped record-by-record
through the per-record enrichment step, so it has exactly one record per
input record, and at every index whose detail fetch fails the output
record is the original summary record unchanged — later records are
still processed. -/
theorem enrichPlantData_fallback_spec (plants : List JVal)
    (getPlant : JVal → Except String JVal)
    (h : plants.all (fun pl => (objAttr pl "id").truthy) = true) :
    ∃ out : List JVal,
      enrichPlantData getPlant (.arr plants) = .ok out
      ∧ out = plants.map (fun pl => enrichOne getPlant (objAttr pl "id") pl)
      ∧ out.length = plants.length
      ∧ (∀ (i : Nat) (hi : i < plants.length) (hi2 : i < out.length) (e : String),
          getPlant (objAttr (plants.get ⟨i, hi⟩) "id") = .error e →
          out.get ⟨i, hi2⟩ = plants.get ⟨i, hi⟩) := by
  rw [List.all_eq_true] at h
  have hnn : ∀ pl ∈ plants, pl.isNullish = false := by
    intro pl hpl
    have := h pl hpl
    cases pl <;> simp_all [objAttr, JVal.truthy, JVal.isNullish]
  have hfilter : plants.filter (fun pl => (objAttr pl "id").truthy) = plants :=
    List.filter_eq_self.mpr h
  have hgo := enrichGo_eq getPlant plants hnn
  rw [hfilter] at hgo
  have htop : enrichPlantData getPlant (.arr plants) = enrichGo getPlant plants := by
    cases plants with
    | nil => rfl
    | cons p ps =>
      simp only [enrichPlantData, JVal.truthy, objAttr, isJsZero, jsElems]
      rfl
  refine ⟨_, htop.trans hgo, rfl, by simp, ?_⟩
  intro i hi hi2 e herr
  simp only [List.get_eq_getElem] at herr ⊢
  simp [List.getElem_map, enrichOne, herr]

/-- Witness detail-fetch oracle: fails exactly for plant id 2, succeeds
with a detail payload for every other id. -/
def witnessGetPlant : JVal → Except String JVal := fun pid =>
  match pid with
  | .num 2 => .error "boom"
  | _ => .ok (.obj [("data", .obj [("main_species", .obj [])])])

/-- Witness for C6: a 3-plant page whose middle detail fetch fails —
the theorem instantiates to an output of exactly 3 records with the
failing index falling back to its summary record. -/
theorem enrichPlantData_fallback_spec_witness :
    ∃ out : List JVal,
      enrichPlantData witnessGetPlant
          (.arr [.obj [("id", .num 1)], .obj [("id", .num 2)], .obj [("id", .num 3)]])
        = .ok out
      ∧ out = [JVal.obj [("id", .num 1)], .obj [("id", .num 2)], .obj [("id", .num 3)]].map
          (fun pl => enrichOne witnessGetPlant (objAttr pl "id") pl)
      ∧ out.length
          = [JVal.obj [("id", .num 1)], .obj [("id", .num 2)], .obj [("id", .num 3)]].length
      ∧ (∀ (i : Nat)
          (hi : i < [JVal.obj [("id", .num 1)], .obj [("id", .num 2)],
            .obj [("id", .num 3)]].length)
          (hi2 : i < out.length) (e : String),
          witnessGetPlant (objAttr ([JVal.obj [("id", .num 1)], .obj [("id", .num 2)],
            .obj [("id", .num 3)]].get ⟨i, hi⟩) "id") = .error e →
          out.get ⟨i, hi2⟩ = [JVal.obj [("id", .num 1)], .obj [("id", .num 2)],
            .obj [("id", .num 3)]].get ⟨i, hi⟩) :=
  enrichPlantData_fallback_spec
    [.obj [("id", .num 1)], .obj [("id", .num 2)], .obj [("id", .num 3)]]
    witnessGetPlant rfl

/-- Claim C10: `enrichPlantData` silently skips every record whose `id`
is absent or falsy — the output is exactly the truthy-id sublist mapped
through the per-record enrichment step — so the output can be strictly
shorter than the input (third conjunct, at a one-record input with no
id); when every record has a truthy id the output has exactly one record
per input record. -/
theorem enrichPlantData_skips_falsy_id (plants : List JVal)
    (getPlant : JVal → Except String JVal)
    (h : plants.all (fun pl => !pl.isNullish) = true) :
    enrichPlantData getPlant (.arr plants)
      = .ok ((plants.filter (fun pl => (objAttr pl "id").truthy)).map
          (fun pl => enrichOne getPlant (objAttr pl "id") pl))
    ∧ (plants.all (fun pl => (objAttr pl "id").truthy) = true →
        ((plants.filter (fun pl => (objAttr pl "id").truthy)).map
          (fun pl => enrichOne getPlant (objAttr pl "id") pl)).length = plants.length)
    ∧ (∃ plants2 out : List JVal,
        plants2.all (fun pl => !pl.isNullish) = true
        ∧ enrichPlantData getPlant (.arr plants2) = .ok out
        ∧ out.length < plants2.length) := by
  rw [List.all_eq_true] at h
  have hnn : ∀ pl ∈ plants, pl.isNullish = false := by
    intro pl hpl
    simpa using h pl hpl
  refine ⟨?_, ?_, ⟨[.obj [("name", .str "anon")]], [], rfl, rfl, by decide⟩⟩
  · have hgo := enrichGo_eq getPlant plants hnn
    cases plants with
    | nil => rfl
    | cons p ps =>
      have htop : enrichPlantData getPlant (.arr (p :: ps)) = enrichGo getPlant (p :: ps) := by
        simp only [enrichPlantData, JVal.truthy, objAttr, isJsZero, jsElems]
        rfl
      rw [htop, hgo]
  · intro h2
    rw [List.filter_eq_self.mpr (by simpa using List.all_eq_true.mp h2)]
    simp

/-- Witness for C10 at a two-record input: the id-less record is dropped
(the filtered map keeps one record), and the strictly-shorter existential
is produced. -/
theorem enrichPlantData_skips_falsy_id_witness :
    enrichPlantData witnessGetPlant
        (.arr [.obj [("id", .num 1)], .obj [("name", .str "noid")]])
      = .ok (([JVal.obj [("id", .num 1)], .obj [("name", .str "noid")]].filter
          (fun pl => (objAttr pl "id").truthy)).map
          (fun pl => enrichOne witnessGetPlant (objAttr pl "id") pl))
    ∧ ([JVal.obj [("id", .num 1)], .obj [("name", .str "noid")]].all
        (fun pl => (objAttr pl "id").truthy) = true →
        (([JVal.obj [("id", .num 1)], .obj [("name", .str "noid")]].filter
          (fun pl => (objAttr pl "id").truthy)).map
          (fun pl => enrichOne witnessGetPlant (objAttr pl "id") pl)).length
          = [JVal.obj [("id", .num 1)], .obj [("name", .str "noid")]].length)
    ∧ (∃ plants2 out : List JVal,
        plants2.all (fun pl => !pl.isNullish) = true
        ∧ enrichPlantData witnessGetPlant (.arr plants2) = .ok out
        ∧ out.length < plants2.length) :=
  enrichPlantData_skips_falsy_id
    [.obj [("id", .num 1)], .obj [("name", .str "noid")]] witnessGetPlant rfl

/-!
## Flattening lemmas
-/

/-- On object inputs the flattener's three throwing root reads succeed,
leaving only the images/distributions projections as effectful steps. -/
theorem flattenPlantData_obj (sfs dfs : List (String × JVal)) :
    flattenPlantData (.obj sfs) (.obj dfs) =
      (match flattenImages (rawImages (mainSpeciesOf (.obj dfs))) with
       | .error e => .error e
       | .ok trimmedImages =>
         match flattenDistributions (rawDistributions (mainSpeciesOf (.obj dfs))) with
         | .error e => .error e
         | .ok trimmedDistributions =>
           .ok (mkFlattened (flattenAssignments (rootProps.map (objAttr (.obj sfs)))
                  (objAttr (.obj sfs) "synonyms") (mainSpeciesOf (.obj dfs))
                  trimmedImages trimmedDistributions))) := rfl

/-- The detail-derived scalar output keys (everything `flattenPlantData`
fills from `main_species` except the separately treated `rank`,
`observations`, `images`, `distributions` and `source`). -/
def detailScalarKeys : List String :=
  ["duration", "edible_part", "edible",
   "flower_color", "flower_conspicuous",
   "foliage_texture", "foliage_color", "foliage_leaf_retention",
   "fruit_conspicuous", "fruit_color", "fruit_shape", "fruit_seed_persistence",
   "spec_ligneous_type", "spec_growth_form", "spec_growth_habit", "spec_growth_rate",
   "spec_average_height_cm", "spec_maximum_height_cm", "spec_nitrogen_fixation",
   "spec_shape_and_orientation", "spec_toxicity",
   "growth_description", "growth_sowing", "growth_days_to_harvest",
   "growth_row_spacing_cm", "growth_spread_cm", "growth_ph_maximum", "growth_ph_minimum",
   "growth_light", "growth_atmospheric_humidity", "growth_months", "growth_bloom_months",
   "growth_fruit_months", "growth_minimum_precipitation_mm", "growth_maximum_precipitation_mm",
   "growth_minimum_root_depth_cm", "growth_minimum_temperature_deg_f",
   "growth_minimum_temperature_deg_c", "growth_maximum_temperature_deg_f",
   "growth_maximum_temperature_deg_c", "growth_soil_nutriments", "growth_soil_salinity",
   "growth_soil_texture", "growth_soil_humidity",
   "genus", "family"]

/-- Linear last-assignment lookup: the value the replayed assignment
sequence leaves at key `k`. -/
def lastVal (l : List (String × JVal)) (k : String) : JVal :=
  l.foldl (fun acc kv => if kv.1 = k then kv.2 else acc) .undefined

theorem lookupField_setField (fs : List (String × JVal)) (k1 k : String) (v : JVal) :
    lookupField (setField fs k1 v) k = if k1 = k then v else lookupField fs k := by
  by_cases h : k1 = k
  · subst h; simp [lookupField_setField_self]
  · simp [h, lookupField_setField_of_ne fs v h]

theorem objAttr_foldl_assign (l : List (String × JVal)) :
    ∀ (fs : List (String × JVal)) (k : String),
      objAttr (l.foldl (fun o kv => jsAssign o kv.1 kv.2) (.obj fs)) k
        = l.foldl (fun acc kv => if kv.1 = k then kv.2 else acc) (lookupField fs k) := by
  induction l with
  | nil => intro fs k; simp [objAttr]
  | cons kv rest ih =>
    intro fs k
    rw [List.foldl_cons, List.foldl_cons]
    have hstep : jsAssign (.obj fs) kv.1 kv.2 = .obj (setField fs kv.1 kv.2) := rfl
    rw [hstep, ih (setField fs kv.1 kv.2) k, lookupField_setField]

/-- Reading a key from the replayed assignment object is a linear scan
for the last assignment to that key. -/
theorem objAttr_mkFlattened (l : List (String × JVal)) (k : String) :
    objAttr (mkFlattened l) k = lastVal l k := by
  simpa [lookupField] using objAttr_foldl_assign l [] k

theorem any_setField (fs : List (String × JVal)) (k1 k : String) (v : JVal) :
    (setField fs k1 v).any (fun kv => kv.1 == k)
      = (fs.any (fun kv => kv.1 == k) || k1 == k) := by
  induction fs with
  | nil => simp [setField]
  | cons kv2 rest ih =>
    by_cases h : kv2.1 = k1
    · simp only [setField, if_pos h, List.any_cons]
      by_cases hk : k1 = k
      · simp [hk, h]
      · simp [hk, h, beq_iff_eq]
    · simp only [setField, if_neg h, List.any_cons, ih, Bool.or_assoc]

theorem hasKeyB_foldl_assign (l : List (String × JVal)) :
    ∀ (fs : List (String × JVal)) (k : String),
      hasKeyB (l.foldl (fun o kv => jsAssign o kv.1 kv.2) (.obj fs)) k
        = (fs.any (fun kv => kv.1 == k) || l.any (fun kv => kv.1 == k)) := by
  induction l with
  | nil => intro fs k; simp [hasKeyB]
  | cons kv rest ih =>
    intro fs k
    rw [List.foldl_cons, List.any_cons]
    have hstep : jsAssign (.obj fs) kv.1 kv.2 = .obj (setField fs kv.1 kv.2) := rfl
    rw [hstep, ih (setField fs kv.1 kv.2) k, any_setField, Bool.or_assoc]

/-- A key is present in the replayed assignment object exactly when some
assignment mentions it. -/
theorem hasKeyB_mkFlattened (l : List (String × JVal)) (k : String) :
    hasKeyB (mkFlattened l) k = l.any (fun kv => kv.1 == k) := by
  simpa using hasKeyB_foldl_assign l [] k

/-!
## Claim C2 — detail records lacking `main_species`

The claim as stated is false on the code: `rank` and `observations` are
first copied from the summary record and then re-assigned from the
defaulted (empty) `main_species`, so with `main_species` missing they end
up `undefined`, not the summary's values; and the detail-derived `images`
and `distributions` fields become empty objects while `source` becomes
`null` — none of these is the `undefined` absence-marker.  The
counterexample exhibits both failures; the amended claim keeps everything
else of the original statement.
-/

/-- Counterexample to claim C2 as stated: for a summary with
`rank: 'species'`, `observations: 'obs'` and a detail record without
`main_species`, the flattener returns a record whose `rank` and
`observations` are `undefined` (overwritten by the missing
`main_species`'s values) even though the summary carries them, and whose
`images`/`distributions`/`source` are `{}`/`{}`/`null` rather than
absent. -/
theorem flatten_missing_main_species_cex :
    ∃ f : JVal,
      flattenPlantData (.obj [("rank", .str "species"), ("observations", .str "obs")])
          (.obj []) = .ok f
      ∧ objAttr f "rank" = .undefined
      ∧ objAttr (.obj [("rank", .str "species"), ("observations", .str "obs")]) "rank"
          = .str "species"
      ∧ objAttr f "observations" = .undefined
      ∧ objAttr f "images" = .obj []
      ∧ objAttr f "distributions" = .obj []
      ∧ objAttr f "source" = .null :=
  ⟨_, rfl, rfl, rfl, rfl, rfl, rfl, rfl⟩

/-- Claim C2 (amended): for every summary record and every detail record
lacking a `main_species` key, `flattenPlantData` returns without error a
record in which every summary-copied root field EXCEPT `rank` and
`observations` equals the corresponding summary field; `rank` and
`observations` are `undefined` (the detail-side re-assignment wins);
`synonyms` is the summary's synonyms trimmed by the flattener's rule;
every detail-derived scalar field is `undefined`; and the detail-derived
container fields are the empty object (`images`, `distributions`) and
`null` (`source`) rather than `undefined`. -/
theorem flatten_missing_main_species (sfs dfs : List (String × JVal))
    (hms : hasKeyB (.obj dfs) "main_species" = false) :
    ∃ f : JVal,
      flattenPlantData (.obj sfs) (.obj dfs) = .ok f
      ∧ (∀ k ∈ rootProps, k ≠ "rank" → k ≠ "observations" →
          objAttr f k = objAttr (.obj sfs) k)
      ∧ objAttr f "rank" = .undefined
      ∧ objAttr f "observations" = .undefined
      ∧ objAttr f "synonyms" = trimSynonymsValue (objAttr (.obj sfs) "synonyms")
      ∧ detailScalarKeys.all (fun k => (objAttr f k).isUndef) = true
      ∧ objAttr f "images" = .obj []
      ∧ objAttr f "distributions" = .obj []
      ∧ objAttr f "source" = .null := by
  have h1 : objAttr (.obj dfs) "main_species" = .undefined := by
    simp only [objAttr]
    exact lookupField_eq_undefined_of_not_hasKey (by simpa [hasKeyB] using hms)
  have h2 : mainSpeciesOf (.obj dfs) = .obj [] := by
    rw [mainSpeciesOf, h1]; rfl
  refine ⟨mkFlattened (flattenAssignments (rootProps.map (objAttr (.obj sfs)))
      (objAttr (.obj sfs) "synonyms") (.obj []) (.obj []) (.obj [])),
      ?_, ?_, ?_, ?_, ?_, ?_, ?_, ?_, ?_⟩
  · rw [flattenPlantData_obj, h2]; rfl
  · intro k hk hr ho
    simp only [objAttr_mkFlattened]
    fin_cases hk
    all_goals first
      | exact absurd rfl hr
      | exact absurd rfl ho
      | simp [lastVal, flattenAssignments, rootProps, mainSpeciesProps, flowerAssignments,
          foliageAssignments, fruitAssignments, specAssignments, growthAssignments,
          objAttr, lookupField, optChain, jsOr, JVal.truthy, JVal.isNullish,
          findFirstSourceWithUrl, nameOf, JVal.typeofIsObject, trimSynonymsValue]
  all_goals
    (simp only [objAttr_mkFlattened]
     simp [detailScalarKeys, JVal.isUndef,
      lastVal, flattenAssignments, rootProps, mainSpeciesProps, flowerAssignments,
      foliageAssignments, fruitAssignments, specAssignments, growthAssignments,
      objAttr, lookupField, optChain, jsOr, JVal.truthy, JVal.isNullish,
      findFirstSourceWithUrl, nameOf, JVal.typeofIsObject, trimSynonymsValue])

/-- Witness for C2 (amended) at a concrete summary and a concrete detail
record without `main_species`. -/
theorem flatten_missing_main_species_witness :
    ∃ f : JVal,
      flattenPlantData (.obj [("id", .num 9), ("rank", .str "species")])
          (.obj [("other", .num 1)]) = .ok f
      ∧ (∀ k ∈ rootProps, k ≠ "rank" → k ≠ "observations" →
          objAttr f k = objAttr (.obj [("id", .num 9), ("rank", .str "species")]) k)
      ∧ objAttr f "rank" = .undefined
      ∧ objAttr f "observations" = .undefined
      ∧ objAttr f "synonyms"
          = trimSynonymsValue (objAttr (.obj [("id", .num 9), ("rank", .str "species")]) "synonyms")
      ∧ detailScalarKeys.all (fun k => (objAttr f k).isUndef) = true
      ∧ objAttr f "images" = .obj []
      ∧ objAttr f "distributions" = .obj []
      ∧ objAttr f "source" = .null :=
  flatten_missing_main_species [("id", .num 9), ("rank", .str "species")]
    [("other", .num 1)] rfl

/-!
## Claim C1 — flattening never fails

The claim as stated is false on the code.  A `null` entry inside an
images list is `typeof 'object'` in JS, so the projection reads
`img.image_url` on `null` and throws; a `null` (or `undefined`) entry
inside a distributions list makes `dist.name` throw.  The amended claim
keeps the defaulting guarantee for every missing/null/non-sequence
NESTED STRUCTURE (the mapping level) and for non-mapping list entries,
but requires the projected list entries themselves to be non-null: no
`null` among the first two entries of any images list and no
`null`/`undefined` entry in the `native`/`introduced` distribution lists.
-/

/-- Counterexample to claim C1 as stated: a `null` entry inside a
distributions list, and a `null` entry inside an images list, each make
`flattenPlantData` throw instead of returning a flat record. -/
theorem flatten_null_entry_throws_cex :
    exceptIsOk (flattenPlantData (.obj [])
        (.obj [("main_species",
          .obj [("distributions", .obj [("native", .arr [.null])])])])) = false
    ∧ exceptIsOk (flattenPlantData (.obj [])
        (.obj [("main_species",
          .obj [("images", .obj [("flower", .arr [.null])])])])) = false :=
  ⟨rfl, rfl⟩

/-- No `null` among the first two entries of any images list of the
detail record (the entries the flattener projects). -/
def imagesEntriesNullFree (detailedData : JVal) : Bool :=
  (jsEntries (rawImages (mainSpeciesOf detailedData))).all
    (fun kv => ((jsElems kv.2).take 2).all (fun x => !x.isNull))

/-- No `null`/`undefined` entry in the `native`/`introduced` distribution
lists of the detail record. -/
def distEntriesNullFree (detailedData : JVal) : Bool :=
  ["native", "introduced"].all (fun key =>
    (jsElems (jsOr (objAttr (rawDistributions (mainSpeciesOf detailedData)) key)
      (.arr []))).all (fun x => !x.isNullish))

theorem trimImageEntry_ok {x : JVal} (h : x.isNull = false) :
    ∃ y : JVal, trimImageEntry x = .ok y := by
  cases x <;> simp_all [trimImageEntry, JVal.isNull, JVal.typeofIsObject, jsIndex]

theorem mapExcept_ok_exists {α β : Type} {f : α → Except String β} :
    ∀ {l : List α}, (∀ x ∈ l, ∃ y, f x = .ok y) → ∃ ys, mapExcept f l = .ok ys := by
  intro l
  induction l with
  | nil => intro _; exact ⟨[], rfl⟩
  | cons x xs ih =>
    intro h
    obtain ⟨y, hy⟩ := h x (by simp)
    obtain ⟨ys, hys⟩ := ih (fun z hz => h z (by simp [hz]))
    exact ⟨y :: ys, by simp [mapExcept, hy, hys]⟩

theorem trimImageList_ok {xs : List JVal} (h : ∀ x ∈ xs.take 2, x.isNull = false) :
    ∃ ys, trimImageList xs = .ok ys := by
  obtain ⟨ys, hys⟩ := mapExcept_ok_exists (fun x hx => trimImageEntry_ok (h x hx))
  exact ⟨ys.filter imageKeep, by simp [trimImageList, hys]⟩

theorem flattenImagesGo_ok :
    ∀ (entries : List (String × JVal)) (acc : List (String × JVal)),
      (∀ kv ∈ entries, ∀ x ∈ (jsElems kv.2).take 2, x.isNull = false) →
      ∃ r, flattenImagesGo entries acc = .ok r := by
  intro entries
  induction entries with
  | nil => intro acc _; exact ⟨acc, rfl⟩
  | cons kv rest ih =>
    intro acc h
    obtain ⟨t, v⟩ := kv
    have hrest := fun acc2 => ih acc2 (fun kv2 hkv2 => h kv2 (by simp [hkv2]))
    by_cases hskip : (!v.truthy || !v.isArr || t == "") = true
    · obtain ⟨r, hr⟩ := hrest acc
      exact ⟨r, by simp only [flattenImagesGo, hskip, if_true, hr]⟩
    · have hv := h (t, v) (by simp)
      obtain ⟨ys, hys⟩ := trimImageList_ok (by simpa using hv)
      by_cases hlen : 0 < ys.length
      · obtain ⟨r, hr⟩ := hrest (setField acc t (.arr ys))
        exact ⟨r, by simp [flattenImagesGo, hskip, hys, hlen, hr]⟩
      · obtain ⟨r, hr⟩ := hrest acc
        exact ⟨r, by simp [flattenImagesGo, hskip, hys, hlen, hr]⟩

theorem flattenImages_ok (images : JVal)
    (h : (jsEntries images).all (fun kv => ((jsElems kv.2).take 2).all
      (fun x => !x.isNull)) = true) :
    ∃ ti, flattenImages images = .ok ti := by
  rw [List.all_eq_true] at h
  obtain ⟨r, hr⟩ := flattenImagesGo_ok (jsEntries images) []
    (fun kv hkv x hx => by simpa using List.all_eq_true.mp (h kv hkv) x hx)
  exact ⟨.obj r, by simp [flattenImages, hr]⟩

theorem trimDistEntry_eq {x : JVal} (h : x.isNullish = false) :
    trimDistEntry x = .ok (projDistEntry x) := by
  cases x <;> simp_all [trimDistEntry, projDistEntry, jsIndex, JVal.isNullish]

theorem trimDistForKey_of_arr {dists : JVal} {key : String} {l : List JVal}
    (hd : jsOr (objAttr dists key) (.arr []) = .arr l)
    (hwf : ∀ x ∈ l, x.isNullish = false) :
    trimDistForKey dists key =
      .ok (if l.length = 0 then none
           else some (((l.map projDistEntry).mergeSort distLe).take 5)) := by
  have hmap : mapExcept trimDistEntry l = .ok (l.map projDistEntry) :=
    mapExcept_ok_of_forall (fun x hx => trimDistEntry_eq (hwf x hx))
  simp only [trimDistForKey, hd]
  by_cases hlen : 0 < l.length
  · have hne : ¬ l.length = 0 := by omega
    have hlen2 : 0 < (((l.map projDistEntry).mergeSort distLe).take 5).length := by
      simp only [List.length_take, List.length_mergeSort, List.length_map]
      omega
    simp [hlen, hmap, hlen2, hne]
  · have h0 : l.length = 0 := Nat.eq_zero_of_not_pos hlen
    simp [hlen, h0]

theorem trimDistForKey_ok (dists : JVal) (key : String)
    (h : (jsElems (jsOr (objAttr dists key) (.arr []))).all
      (fun x => !x.isNullish) = true) :
    ∃ r, trimDistForKey dists key = .ok r := by
  cases hd : jsOr (objAttr dists key) (.arr []) with
  | arr l =>
    rw [hd] at h
    exact ⟨_, trimDistForKey_of_arr hd
      (fun x hx => by simpa using List.all_eq_true.mp h x (by simpa [jsElems] using hx))⟩
  | _ => exact ⟨none, by simp only [trimDistForKey, hd]⟩

theorem flattenDistributions_ok (dists : JVal)
    (h : ["native", "introduced"].all (fun key =>
      (jsElems (jsOr (objAttr dists key) (.arr []))).all
        (fun x => !x.isNullish)) = true) :
    ∃ td, flattenDistributions dists = .ok td := by
  rw [List.all_eq_true] at h
  obtain ⟨n, hn⟩ := trimDistForKey_ok dists "native" (h _ (by simp))
  obtain ⟨i, hi⟩ := trimDistForKey_ok dists "introduced" (h _ (by simp))
  cases n with
  | none =>
    cases i with
    | none => exact ⟨.obj [], by unfold flattenDistributions; simp only [hn, hi]; rfl⟩
    | some t2 =>
      exact ⟨.obj [("introduced", .arr t2)],
        by unfold flattenDistributions; simp only [hn, hi]; rfl⟩
  | some t1 =>
    cases i with
    | none =>
      exact ⟨.obj [("native", .arr t1)],
        by unfold flattenDistributions; simp only [hn, hi]; rfl⟩
    | some t2 =>
      exact ⟨.obj [("native", .arr t1), ("introduced", .arr t2)],
        by unfold flattenDistributions; simp only [hn, hi]; rfl⟩

/-- Claim C1 (amended): for every summary record and every detail record
(as mappings) whose images lists have no `null` among their first two
entries and whose `native`/`introduced` distribution lists have no
`null`/`undefined` entries, `flattenPlantData` returns a flat record
without raising: every nested access at the mapping level defaults to an
empty mapping/sequence before projection, whatever shape the nested
structures have.  (Without the two entry-level conditions the original
claim is refuted by `flatten_null_entry_throws_cex`.) -/
theorem flatten_never_fails (sfs dfs : List (String × JVal))
    (him : imagesEntriesNullFree (.obj dfs) = true)
    (hdi : distEntriesNullFree (.obj dfs) = true) :
    ∃ f : JVal, flattenPlantData (.obj sfs) (.obj dfs) = .ok f := by
  obtain ⟨ti, hti⟩ := flattenImages_ok (rawImages (mainSpeciesOf (.obj dfs)))
    (by simpa [imagesEntriesNullFree] using him)
  obtain ⟨td, htd⟩ := flattenDistributions_ok
    (rawDistributions (mainSpeciesOf (.obj dfs)))
    (by simpa [distEntriesNullFree] using hdi)
  rw [flattenPlantData_obj, hti, htd]
  exact ⟨_, rfl⟩

/-- Witness for C1 (amended) at a detail record exercising every messy
nested shape the amended claim allows: a numeric `main_species`
sub-field, a string images entry, a non-array images list, an empty-key
image type, distribution entries without counts, and missing groups. -/
theorem flatten_never_fails_witness :
    ∃ f : JVal,
      flattenPlantData (.obj [("id", .num 1)])
        (.obj [("main_species", .obj
          [("images", .obj [("flower", .arr [.str "odd", .obj [("image_url", .str "u")],
                                             .null]),
                            ("", .arr [.obj [("copyright", .str "c")]]),
                            ("bark", .str "not-a-list")]),
           ("distributions", .obj [("native", .arr [.obj [("name", .str "a")],
                                                    .obj [("name", .str "b"),
                                                          ("species_count", .num 4)]])]),
           ("flower", .num 3),
           ("genus", .str "Quercus")])]) = .ok f :=
  flatten_never_fails [("id", .num 1)]
    [("main_species", .obj
      [("images", .obj [("flower", .arr [.str "odd", .obj [("image_url", .str "u")], .null]),
                        ("", .arr [.obj [("copyright", .str "c")]]),
                        ("bark", .str "not-a-list")]),
       ("distributions", .obj [("native", .arr [.obj [("name", .str "a")],
                                                .obj [("name", .str "b"),
                                                      ("species_count", .num 4)]])]),
       ("flower", .num 3),
       ("genus", .str "Quercus")])] rfl rfl

/-!
## Claim C9 — the output always carries the full rule-set key set
-/

/-- Decomposition of a successful flattening into its effectful parts and
the pure assignment replay. -/
theorem flattenPlantData_ok_decomp {p d f : JVal} (h : flattenPlantData p d = .ok f) :
    ∃ (rootVals : List JVal) (ti td : JVal),
      mapExcept (jsIndex p) rootProps = .ok rootVals
      ∧ rootVals.length = rootProps.length
      ∧ flattenImages (rawImages (mainSpeciesOf d)) = .ok ti
      ∧ flattenDistributions (rawDistributions (mainSpeciesOf d)) = .ok td
      ∧ f = mkFlattened (flattenAssignments rootVals (objAttr p "synonyms")
            (mainSpeciesOf d) ti td) := by
  unfold flattenPlantData at h
  cases hrv : mapExcept (jsIndex p) rootProps with
  | error e => simp only [hrv] at h; exact Except.noConfusion h
  | ok rootVals =>
    simp only [hrv] at h
    cases hsyn : jsIndex p "synonyms" with
    | error e => simp only [hsyn] at h; exact Except.noConfusion h
    | ok synRaw =>
      simp only [hsyn] at h
      have hsynv := jsIndex_ok_val hsyn
      subst hsynv
      cases hms : jsIndex d "main_species" with
      | error e => simp only [hms] at h; exact Except.noConfusion h
      | ok ms0 =>
        simp only [hms] at h
        have hmsv := jsIndex_ok_val hms
        subst hmsv
        have hmsdef : jsOr (objAttr d "main_species") (.obj []) = mainSpeciesOf d := rfl
        rw [hmsdef] at h
        cases hti : flattenImages (rawImages (mainSpeciesOf d)) with
        | error e => simp only [hti] at h; exact Except.noConfusion h
        | ok ti =>
          simp only [hti] at h
          cases htd : flattenDistributions (rawDistributions (mainSpeciesOf d)) with
          | error e => simp only [htd] at h; exact Except.noConfusion h
          | ok td =>
            simp only [htd] at h
            injection h with h2
            exact ⟨rootVals, ti, td, rfl, mapExcept_ok_length hrv, rfl, rfl, h2.symm⟩

/-- The fixed key set of the flattening rule set: the summary root
fields, `synonyms`, the `main_species` fields, `images`,
`distributions`, the prefixed groups, `source`, `genus` and `family`. -/
def flattenedKeys : List String :=
  rootProps ++ ["synonyms"] ++ mainSpeciesProps
  ++ ["images", "distributions",
      "flower_color", "flower_conspicuous",
      "foliage_texture", "foliage_color", "foliage_leaf_retention",
      "fruit_conspicuous", "fruit_color", "fruit_shape", "fruit_seed_persistence",
      "source",
      "spec_ligneous_type", "spec_growth_form", "spec_growth_habit", "spec_growth_rate",
      "spec_average_height_cm", "spec_maximum_height_cm", "spec_nitrogen_fixation",
      "spec_shape_and_orientation", "spec_toxicity",
      "growth_description", "growth_sowing", "growth_days_to_harvest",
      "growth_row_spacing_cm", "growth_spread_cm", "growth_ph_maximum", "growth_ph_minimum",
      "growth_light", "growth_atmospheric_humidity", "growth_months", "growth_bloom_months",
      "growth_fruit_months", "growth_minimum_precipitation_mm",
      "growth_maximum_precipitation_mm", "growth_minimum_root_depth_cm",
      "growth_minimum_temperature_deg_f", "growth_minimum_temperature_deg_c",
      "growth_maximum_temperature_deg_f", "growth_maximum_temperature_deg_c",
      "growth_soil_nutriments", "growth_soil_salinity", "growth_soil_texture",
      "growth_soil_humidity",
      "genus", "family"]

/-- Whatever the inputs, the keys of the replayed assignment sequence are
exactly the rule-set keys (the root-value list has one value per root
property). -/
theorem flattenAssignments_keys (rootVals : List JVal)
    (h : rootVals.length = rootProps.length) (synRaw ms ti td : JVal) :
    (flattenAssignments rootVals synRaw ms ti td).map Prod.fst = flattenedKeys := by
  have hz : (rootProps.zip rootVals).map Prod.fst = rootProps :=
    List.map_fst_zip _ _ (le_of_eq h.symm)
  simp only [flattenAssignments, List.map_append, hz]
  rfl

/-- Claim C9: whenever `flattenPlantData` returns, the returned record
has every key of the fixed rule set present (with the `undefined`
absence-marker as the value when the source path was missing — key
presence never depends on the source's presence). -/
theorem flatten_output_has_all_keys (p d f : JVal) (h : flattenPlantData p d = .ok f) :
    flattenedKeys.all (fun k => hasKeyB f k) = true := by
  obtain ⟨rv, ti, td, hrv, hlen, hti, htd, hfeq⟩ := flattenPlantData_ok_decomp h
  subst hfeq
  rw [List.all_eq_true]
  intro k hk
  rw [hasKeyB_mkFlattened, List.any_eq_true]
  have hkeys := flattenAssignments_keys rv hlen (objAttr p "synonyms") (mainSpeciesOf d) ti td
  have hmem : k ∈ (flattenAssignments rv (objAttr p "synonyms")
      (mainSpeciesOf d) ti td).map Prod.fst := by
    rw [hkeys]; exact hk
  obtain ⟨kv, hkv, hfst⟩ := List.mem_map.mp hmem
  exact ⟨kv, hkv, by simp [hfst]⟩

/-- Witness for C9: a minimal summary/detail pair still yields a record
carrying every rule-set key. -/
theorem flatten_output_has_all_keys_witness :
    ∃ f : JVal,
      flattenPlantData (.obj [("id", .num 1)]) (.obj []) = .ok f
      ∧ flattenedKeys.all (fun k => hasKeyB f k) = true := by
  refine ⟨_, rfl, ?_⟩
  exact flatten_output_has_all_keys (.obj [("id", .num 1)]) (.obj []) _ rfl

/-!
## Claim C4 — the trimmed distributions

The comparator key is total and transitive once every entry's
`species_count` is a number, `null` or absent; on such entries the
embedded comparator `distLe` agrees with the key comparison `distLeKey`,
so the stock merge-sort lemmas transport to the flattener's sort.
-/

theorem foldl_pick_no_key {k : String} (l : List (String × JVal))
    (h : ∀ kv ∈ l, kv.1 ≠ k) :
    ∀ acc : JVal, l.foldl (fun acc kv => if kv.1 = k then kv.2 else acc) acc = acc := by
  induction l with
  | nil => intro acc; rfl
  | cons kv rest ih =>
    intro acc
    rw [List.foldl_cons, if_neg (h kv (by simp)), ih (fun kv2 h2 => h kv2 (by simp [h2]))]

/-- The `distributions` field of the replayed assignment sequence is
exactly the trimmed distributions object. -/
theorem objAttr_flattened_distributions (rootVals : List JVal) (synRaw ms ti td : JVal) :
    objAttr (mkFlattened (flattenAssignments rootVals synRaw ms ti td)) "distributions"
      = td := by
  rw [objAttr_mkFlattened]
  have hz : ∀ kv ∈ rootProps.zip rootVals, kv.1 ≠ "distributions" := by
    intro kv hkv
    obtain ⟨a, b⟩ := kv
    intro he
    have h1 := (List.of_mem_zip hkv).1
    have ha : a = "distributions" := he
    rw [ha] at h1
    exact absurd h1 (by decide)
  unfold lastVal flattenAssignments
  simp only [List.foldl_append]
  rw [foldl_pick_no_key (rootProps.zip rootVals) hz]
  simp [mainSpeciesProps, flowerAssignments, foliageAssignments, fruitAssignments,
    specAssignments, growthAssignments, List.foldl_map]

theorem flattenDistributions_ok_decomp {dists td : JVal}
    (h : flattenDistributions dists = .ok td) :
    ∃ (n i : Option (List JVal)),
      trimDistForKey dists "native" = .ok n
      ∧ trimDistForKey dists "introduced" = .ok i
      ∧ td = .obj ((match n with
                    | some t => [("native", JVal.arr t)]
                    | none => []) ++
                   (match i with
                    | some t => [("introduced", JVal.arr t)]
                    | none => [])) := by
  unfold flattenDistributions at h
  cases hn : trimDistForKey dists "native" with
  | error e => simp only [hn] at h; exact Except.noConfusion h
  | ok n =>
    simp only [hn] at h
    cases hi : trimDistForKey dists "introduced" with
    | error e => simp only [hi] at h; exact Except.noConfusion h
    | ok i =>
      simp only [hi] at h
      injection h with h2
      exact ⟨n, i, rfl, rfl, h2.symm⟩

theorem distCountNum_eq_some {x : JVal}
    (h : isNumOrNullish (objAttr x "species_count") = true) :
    distCountNum x = some (speciesCountOf x) := by
  have hsome : (distCountNum x).isSome = true := by
    unfold distCountNum
    cases hv : objAttr x "species_count" <;>
      simp_all [isNumOrNullish, jsNullishCoalesce, JVal.isNullish, toNumber]
  obtain ⟨v, hv⟩ := Option.isSome_iff_exists.mp hsome
  unfold speciesCountOf
  rw [hv]
  rfl

theorem distLe_eq_distLeKey {a b : JVal}
    (ha : isNumOrNullish (objAttr a "species_count") = true)
    (hb : isNumOrNullish (objAttr b "species_count") = true) :
    distLe a b = distLeKey a b := by
  unfold distLe distLeKey
  simp only [distCountNum_eq_some ha, distCountNum_eq_some hb]

theorem distLeKey_trans (a b c : JVal) :
    distLeKey a b → distLeKey b c → distLeKey a c := by
  simp only [distLeKey, decide_eq_true_eq]
  omega

theorem distLeKey_total (a b : JVal) : distLeKey a b || distLeKey b a := by
  simp only [distLeKey]
  by_cases h : speciesCountOf b ≤ speciesCountOf a
  · simp [h]
  · simp [h, le_of_not_le h]

theorem projDistEntry_species_count (x : JVal) :
    objAttr (projDistEntry x) "species_count" = objAttr x "species_count" := by
  simp [projDistEntry, objAttr, lookupField]

/-- Claim C4: whenever `flattenPlantData` returns and the (defaulted)
distribution list at `key ∈ {native, introduced}` of the detail record is
a sequence `l` whose entries are non-nullish with numeric-or-missing
`species_count`, the output's `distributions` value at that key is the
first five entries of a list `s` that is a permutation of `l` projected
to `{name, species_count}`, is sorted non-increasing by `species_count`
(missing treated as 0), and preserves the projection's relative order
among entries of equal count (the filter at each count value is
unchanged); its length is `min 5 l.length` (so at most 5), and the key is
present in the output distributions mapping iff the resulting sequence is
non-empty (iff `l` is non-empty). -/
theorem flatten_distributions_spec (p d : JVal) (key : String) (l : List JVal) (f : JVal)
    (hkey : key = "native" ∨ key = "introduced")
    (hd : jsOr (objAttr (rawDistributions (mainSpeciesOf d)) key) (.arr []) = .arr l)
    (hwf : l.all (fun x => !x.isNullish
        && isNumOrNullish (objAttr x "species_count")) = true)
    (hf : flattenPlantData p d = .ok f) :
    ∃ s : List JVal,
      s.Perm (l.map projDistEntry)
      ∧ s.Pairwise (fun a b => speciesCountOf b ≤ speciesCountOf a)
      ∧ (∀ c : Int, s.filter (fun x => speciesCountOf x == c)
          = (l.map projDistEntry).filter (fun x => speciesCountOf x == c))
      ∧ (l ≠ [] → objAttr (objAttr f "distributions") key = .arr (s.take 5)
          ∧ (s.take 5).length = min 5 l.length)
      ∧ (hasKeyB (objAttr f "distributions") key = true ↔ l ≠ []) := by
  rw [List.all_eq_true] at hwf
  have hwf1 : ∀ x ∈ l, x.isNullish = false := by
    intro x hx
    have hx2 := hwf x hx
    simp only [Bool.and_eq_true, Bool.not_eq_eq_eq_not, Bool.not_true] at hx2
    simpa using hx2.1
  have hwf2 : ∀ x ∈ l, isNumOrNullish (objAttr x "species_count") = true := by
    intro x hx
    have hx2 := hwf x hx
    simp only [Bool.and_eq_true] at hx2
    exact hx2.2
  have hprwf : ∀ y ∈ l.map projDistEntry,
      isNumOrNullish (objAttr y "species_count") = true := by
    intro y hy
    obtain ⟨x, hx, rfl⟩ := List.mem_map.mp hy
    rw [projDistEntry_species_count]
    exact hwf2 x hx
  have htr : (l.map projDistEntry).mergeSort distLe
      = (l.map projDistEntry).mergeSort distLeKey := by
    have hmap := List.map_mergeSort (r := distLe) (s := distLeKey) (f := id)
      (l := l.map projDistEntry)
      (fun a ha b hb => by
        simp only [id]
        exact distLe_eq_distLeKey (hprwf a ha) (hprwf b hb))
    simpa [List.map_id] using hmap
  refine ⟨(l.map projDistEntry).mergeSort distLeKey, ?_, ?_, ?_, ?_, ?_⟩
  · exact List.mergeSort_perm (l.map projDistEntry) distLeKey
  · exact (List.sorted_mergeSort distLeKey_trans distLeKey_total
      (l.map projDistEntry)).imp (fun h => by simpa [distLeKey] using h)
  · intro c
    have hfc_all : ∀ x ∈ (l.map projDistEntry).filter (fun x => speciesCountOf x == c),
        (speciesCountOf x == c) = true :=
      fun x hx => (List.mem_filter.mp hx).2
    have hfc_pair : ((l.map projDistEntry).filter
        (fun x => speciesCountOf x == c)).Pairwise (fun a b => distLeKey a b = true) := by
      apply List.pairwise_of_forall_mem_list
      intro a ha b hb
      have ha2 := (List.mem_filter.mp ha).2
      have hb2 := (List.mem_filter.mp hb).2
      simp only [beq_iff_eq] at ha2 hb2
      simp [distLeKey, ha2, hb2]
    have hsub : List.Sublist ((l.map projDistEntry).filter
        (fun x => speciesCountOf x == c)) (l.map projDistEntry) := List.filter_sublist _
    have h1 := List.sublist_mergeSort distLeKey_trans distLeKey_total hfc_pair hsub
    have h2 : List.Sublist ((l.map projDistEntry).filter (fun x => speciesCountOf x == c))
        (((l.map projDistEntry).mergeSort distLeKey).filter
          (fun x => speciesCountOf x == c)) := by
      have h3 := List.Sublist.filter (fun x => speciesCountOf x == c) h1
      rwa [List.filter_eq_self.mpr hfc_all] at h3
    have h4 := (List.mergeSort_perm (l.map projDistEntry) distLeKey).filter
      (fun x => speciesCountOf x == c)
    exact (List.Sublist.eq_of_length h2 h4.length_eq.symm).symm
  · intro hne
    obtain ⟨rv, ti, td, hrv, hlen, hti, htd, hfeq⟩ := flattenPlantData_ok_decomp hf
    obtain ⟨n, i, hn, hi, htdeq⟩ := flattenDistributions_ok_decomp htd
    subst hfeq
    subst htdeq
    rw [objAttr_flattened_distributions]
    have hne2 : ¬ l.length = 0 := by
      cases l with
      | nil => exact absurd rfl hne
      | cons a as => simp
    rcases hkey with rfl | rfl
    · rw [trimDistForKey_of_arr hd hwf1] at hn
      injection hn with hn2
      rw [if_neg hne2] at hn2
      subst hn2
      cases hi2 : i <;>
        refine ⟨?_, ?_⟩ <;>
        simp [objAttr, lookupField, htr, List.length_take, List.length_mergeSort,
          List.length_map, hi2]
    · rw [trimDistForKey_of_arr hd hwf1] at hi
      injection hi with hi2
      rw [if_neg hne2] at hi2
      subst hi2
      cases hn2 : n <;>
        refine ⟨?_, ?_⟩ <;>
        simp [objAttr, lookupField, htr, List.length_take, List.length_mergeSort,
          List.length_map, hn2]
  · obtain ⟨rv, ti, td, hrv, hlen, hti, htd, hfeq⟩ := flattenPlantData_ok_decomp hf
    obtain ⟨n, i, hn, hi, htdeq⟩ := flattenDistributions_ok_decomp htd
    subst hfeq
    subst htdeq
    rw [objAttr_flattened_distributions]
    rcases hkey with rfl | rfl
    · rw [trimDistForKey_of_arr hd hwf1] at hn
      injection hn with hn2
      by_cases hne2 : l.length = 0
      · rw [if_pos hne2] at hn2
        subst hn2
        have hl0 : l = [] := List.eq_nil_of_length_eq_zero hne2
        cases hi2 : i <;> simp [hasKeyB, hl0, hi2]
      · rw [if_neg hne2] at hn2
        subst hn2
        have hl0 : l ≠ [] := by
          cases l with
          | nil => exact absurd rfl hne2
          | cons a as => simp
        cases hi2 : i <;> simp [hasKeyB, hl0, hi2]
    · rw [trimDistForKey_of_arr hd hwf1] at hi
      injection hi with hi2
      by_cases hne2 : l.length = 0
      · rw [if_pos hne2] at hi2
        subst hi2
        have hl0 : l = [] := List.eq_nil_of_length_eq_zero hne2
        cases hn2 : n <;> simp [hasKeyB, hl0, hn2]
      · rw [if_neg hne2] at hi2
        subst hi2
        have hl0 : l ≠ [] := by
          cases l with
          | nil => exact absurd rfl hne2
          | cons a as => simp
        cases hn2 : n <;> simp [hasKeyB, hl0, hn2]

/-- Distribution entries for the C4 witness: counts 1, 5, null, 5,
missing, 9, 2 — exercising ties, nullish counts and truncation. -/
def distWitnessEntries : List JVal :=
  [.obj [("name", .str "a"), ("species_count", .num 1)],
   .obj [("name", .str "b"), ("species_count", .num 5)],
   .obj [("name", .str "c"), ("species_count", .null)],
   .obj [("name", .str "d"), ("species_count", .num 5)],
   .obj [("name", .str "e")],
   .obj [("name", .str "f"), ("species_count", .num 9)],
   .obj [("name", .str "g"), ("species_count", .num 2)]]

/-- Detail-record fields for the C4 witness. -/
def distWitnessFields : List (String × JVal) :=
  [("main_species", .obj
    [("distributions", .obj [("native", .arr distWitnessEntries)])])]

/-- Witness for C4 at the seven-entry native list. -/
theorem flatten_distributions_spec_witness :
    ∃ f : JVal,
      flattenPlantData (.obj []) (.obj distWitnessFields) = .ok f
      ∧ ∃ s : List JVal,
        s.Perm (distWitnessEntries.map projDistEntry)
        ∧ s.Pairwise (fun a b => speciesCountOf b ≤ speciesCountOf a)
        ∧ (∀ c : Int, s.filter (fun x => speciesCountOf x == c)
            = (distWitnessEntries.map projDistEntry).filter
                (fun x => speciesCountOf x == c))
        ∧ (distWitnessEntries ≠ [] →
            objAttr (objAttr f "distributions") "native" = .arr (s.take 5)
            ∧ (s.take 5).length = min 5 distWitnessEntries.length)
        ∧ (hasKeyB (objAttr f "distributions") "native" = true
            ↔ distWitnessEntries ≠ []) := by
  obtain ⟨ti, hti⟩ := flattenImages_ok
    (rawImages (mainSpeciesOf (.obj distWitnessFields))) (by rfl)
  obtain ⟨td, htd⟩ := flattenDistributions_ok
    (rawDistributions (mainSpeciesOf (.obj distWitnessFields))) (by rfl)
  have hf : flattenPlantData (.obj []) (.obj distWitnessFields)
      = .ok (mkFlattened (flattenAssignments (rootProps.map (objAttr (.obj [])))
          (objAttr (.obj []) "synonyms") (mainSpeciesOf (.obj distWitnessFields)) ti td)) := by
    rw [flattenPlantData_obj]
    simp only [hti, htd]
  exact ⟨_, hf, flatten_distributions_spec (.obj []) (.obj distWitnessFields) "native"
    distWitnessEntries _ (Or.inl rfl) rfl rfl hf⟩
